import Mathlib

/-! HISE: optimisation identifiers and the MIDI event logger.

A shallow embedding of

* `snex::jit::OptimizationIds` (`hi_snex/hi_snex.h`),
* `MidiProcessor::logIfEnabled`, `MidiProcessor::setEnableEventLogger` and
  `MidiProcessor::EventLogger::Display` (`hi_dsp/modules/MidiProcessor.cpp`),

together with the scope handler and the template engine of the compiler core,
which the specification describes and whose implementation files are not part
of the sources at hand.

`juce::String` is `String`, `juce::StringArray` and `juce::Array<T>` are lists,
a nullable owning pointer is an `Option`.
-/

namespace snex.jit.OptimizationIds

/-! ## `OptimizationIds`

The declaring line is `#define DECLARE_ID(x) static const juce::String x(#x);` : every
identifier is a string constant whose value is the spelling of its own name. -/

def SmallObjectOptimisation : String := "SmallObjectOptimisation"
def ConstantFolding : String := "ConstantFolding"
def Inlining : String := "Inlining"
def AutoVectorisation : String := "AutoVectorisation"
def DeadCodeElimination : String := "DeadCodeElimination"
def BinaryOpOptimisation : String := "BinaryOpOptimisation"
def LoopOptimisation : String := "LoopOptimisation"
def AsmOptimisation : String := "AsmOptimisation"
def NoSafeChecks : String := "NoSafeChecks"

/-- The nine `DECLARE_ID` lines of the namespace, in source order. -/
inductive Declaration where
  | smallObjectOptimisation
  | constantFolding
  | inlining
  | autoVectorisation
  | deadCodeElimination
  | binaryOpOptimisation
  | loopOptimisation
  | asmOptimisation
  | noSafeChecks
  deriving DecidableEq

/-- The string constant a `DECLARE_ID` line defines. -/
def Declaration.value : Declaration → String
  | .smallObjectOptimisation => SmallObjectOptimisation
  | .constantFolding => ConstantFolding
  | .inlining => Inlining
  | .autoVectorisation => AutoVectorisation
  | .deadCodeElimination => DeadCodeElimination
  | .binaryOpOptimisation => BinaryOpOptimisation
  | .loopOptimisation => LoopOptimisation
  | .asmOptimisation => AsmOptimisation
  | .noSafeChecks => NoSafeChecks

/-- All declarations, in source order. -/
def allDeclarations : List Declaration :=
  [.smallObjectOptimisation, .constantFolding, .inlining, .autoVectorisation,
   .deadCodeElimination, .binaryOpOptimisation, .loopOptimisation, .asmOptimisation,
   .noSafeChecks]

/-- Source: `static StringArray getDefaultIds()`, compiled when `HISE_INCLUDE_SNEX` is set. -/
def getDefaultIds : List String :=
  [BinaryOpOptimisation, ConstantFolding, DeadCodeElimination, Inlining, LoopOptimisation,
   AsmOptimisation, NoSafeChecks]

/-- Source: `static StringArray getAllIds()` (compiled when `HISE_INCLUDE_SNEX` is set). -/
def getAllIds : List String :=
  [BinaryOpOptimisation, ConstantFolding, DeadCodeElimination, Inlining, LoopOptimisation,
   AsmOptimisation, NoSafeChecks]

/-- Modelled from the spec: the caller's per-identifier toggle on a set of enabled
optimisation ids ("each independently enableable/disableable by the caller"); the
sources declare the identifiers and the two lists only. An enabled id is removed, a
disabled one is added at the end. -/
def toggleId (id : String) (ids : List String) : List String :=
  if id ∈ ids then ids.filter (fun x => x != id) else ids ++ [id]

end snex.jit.OptimizationIds

namespace snex.jit

/-! ## Scope handler (specification section 4.3) -/

/-- Modelled from the spec: the kind of a lexical scope (global, namespace, class,
function, block); the scope handler's implementation file is not among the sources. -/
inductive ScopeKind where
  | global
  | namespace_
  | class_
  | function
  | block
  deriving DecidableEq

/-- Modelled from the spec: the name-resolution errors of the error taxonomy
(DuplicateName, NotFound, Ambiguous); the implementation is not among the sources. -/
inductive NameResolutionError where
  | DuplicateNameError
  | NotFoundError
  | AmbiguousError
  deriving DecidableEq

/-- Modelled from the spec: a scope is a node in a tree holding a mapping from
identifier to symbol, a back-reference to its parent scope and a kind. Scopes live in an
arena and refer to each other by index. The implementation is not among the sources. -/
structure Scope (Symbol : Type) where
  kind : ScopeKind
  parent : Option Nat
  symbols : List (String × Symbol)

/-- Modelled from the spec: the symbol a name is bound to in this very scope, if any
(enclosing scopes are not consulted). -/
def Scope.lookupLocal {Symbol : Type} (s : Scope Symbol) (name : String) : Option Symbol :=
  (s.symbols.find? (fun p => p.1 == name)).map Prod.snd

/-- Modelled from the spec: the scope handler of one compilation unit: the arena of
scopes created so far and the scope that declarations currently go to. The
implementation is not among the sources. -/
structure NamespaceHandler (Symbol : Type) where
  scopes : List (Scope Symbol)
  current : Nat

/-- Modelled from the spec: the scope declarations currently go to. -/
def NamespaceHandler.currentScope {Symbol : Type} (h : NamespaceHandler Symbol) :
    Option (Scope Symbol) :=
  h.scopes[h.current]?

/-- Modelled from the spec: `enterScope(kind) -> ScopeHandle`: a scope is created when
its syntactic construct is entered, as a child of the scope entered from, with no
bindings yet; the handle is its index in the arena. -/
def NamespaceHandler.enterScope {Symbol : Type} (kind : ScopeKind)
    (h : NamespaceHandler Symbol) : Nat × NamespaceHandler Symbol :=
  (h.scopes.length,
   { scopes := h.scopes ++ [{ kind := kind, parent := some h.current, symbols := [] }],
     current := h.scopes.length })

/-- Modelled from the spec: `declare(name, Symbol) -> success|DuplicateNameError`:
re-declaring a name already bound in the same scope is a DuplicateNameError; only the
scope declared into is consulted, so a binding of an enclosing scope is shadowed. (A
handler whose current index lies outside its arena has no scope to declare into;
`enterScope` never produces one.) -/
def NamespaceHandler.declare {Symbol : Type} (name : String) (sym : Symbol)
    (h : NamespaceHandler Symbol) : Except NameResolutionError (NamespaceHandler Symbol) :=
  match h.currentScope with
  | none => .error .NotFoundError
  | some s =>
    match s.lookupLocal name with
    | some _ => .error .DuplicateNameError
    | none =>
      .ok { h with scopes := h.scopes.set h.current { s with symbols := s.symbols ++ [(name, sym)] } }

/-! ## Template engine (specification sections 3 and 4.4) -/

/-- Modelled from the spec: the key of a template instance: the template symbol and the
ordered list of bound parameter values. The template engine is not among the sources. -/
structure TemplateKey (Sym Par : Type) where
  templateSymbol : Sym
  boundParameters : List Par
  deriving DecidableEq

/-- Modelled from the spec: the instantiation cache of one compilation unit, with the
number of code generations run so far (the counting stub of the testable properties). -/
structure TemplateEngine (Sym Par Inst : Type) where
  cache : List (TemplateKey Sym Par × Inst)
  codegenCount : Nat

/-- Modelled from the spec: the cached instance of a key, if any. -/
def TemplateEngine.cached {Sym Par Inst : Type} [DecidableEq Sym] [DecidableEq Par]
    (t : TemplateEngine Sym Par Inst) (key : TemplateKey Sym Par) : Option Inst :=
  (t.cache.find? (fun p => decide (p.1 = key))).map Prod.snd

/-- Modelled from the spec: `instantiate(templateSymbol, boundParameters)`: a key that
is cached returns its cached instance; otherwise code generation runs (`codegen`, which
is given the number of earlier generations, so that two runs need not agree), is counted,
and its result is cached under the key. -/
def TemplateEngine.instantiate {Sym Par Inst : Type} [DecidableEq Sym] [DecidableEq Par]
    (codegen : Nat → TemplateKey Sym Par → Inst)
    (templateSymbol : Sym) (boundParameters : List Par) (t : TemplateEngine Sym Par Inst) :
    Inst × TemplateEngine Sym Par Inst :=
  let key : TemplateKey Sym Par := ⟨templateSymbol, boundParameters⟩
  match t.cached key with
  | some i => (i, t)
  | none =>
    let i := codegen t.codegenCount key
    (i, { cache := t.cache ++ [(key, i)], codegenCount := t.codegenCount + 1 })

end snex.jit

namespace hise

/-! ## `MidiProcessor::logIfEnabled` and `MidiProcessor::setEnableEventLogger`

The embedding is of the `USE_BACKEND` build, the one in which `EventLogger` is declared.
`hise::LockfreeQueue` is declared outside these sources: the queue type `Q`, its
constructor `newQueue` (from a capacity) and its `push` are parameters. -/

/-- The values the accessors of a `HiseEvent` return (`HiseEvent` itself is declared
outside these sources): `getNoteNumber`, `getVelocity`, `(int)getType()`, `getChannel`,
`getEventId`, `(int)getTimeStamp()`, `isArtificial`, `isIgnored`, `isTimerEvent`. -/
structure HiseEvent where
  noteNumber : Int
  velocity : Int
  type : Int
  channel : Int
  eventId : Int
  timeStamp : Int
  artificial : Bool
  ignored : Bool
  timerEvent : Bool
  deriving DecidableEq

/-- Source: `struct MidiProcessor::EventLogger`: the two queues. -/
structure EventLogger (Q : Type) where
  inputQueue : Q
  outputQueue : Q

/-- Source: `EventLogger()`: `inputQueue(512), outputQueue(512)`. -/
def EventLogger.new {Q : Type} (newQueue : Nat → Q) : EventLogger Q :=
  { inputQueue := newQueue 512, outputQueue := newQueue 512 }

/-- The state of a `MidiProcessor` that the two functions can see: the members its
constructor sets and the owned logger (`nullptr` is `none`). -/
structure MidiProcessor (Q : Type) where
  processThisMessage : Bool
  numThisTime : Int
  eventLogger : Option (EventLogger Q)

/-- Source: `void MidiProcessor::logIfEnabled(const HiseEvent& e, bool beforeProcessing)`. -/
def MidiProcessor.logIfEnabled {Q : Type} (push : Q → HiseEvent → Q)
    (e : HiseEvent) (beforeProcessing : Bool) (mp : MidiProcessor Q) : MidiProcessor Q :=
  match mp.eventLogger with
  | some logger =>
    if beforeProcessing then
      { mp with eventLogger := some ({ logger with inputQueue := push logger.inputQueue e }) }
    else
      { mp with eventLogger := some ({ logger with outputQueue := push logger.outputQueue e }) }
  | none => mp

/-- Source: `void MidiProcessor::setEnableEventLogger(bool shouldBeEnabled)`. -/
def MidiProcessor.setEnableEventLogger {Q : Type} (newQueue : Nat → Q)
    (shouldBeEnabled : Bool) (mp : MidiProcessor Q) : MidiProcessor Q :=
  let isLoggingEvents := mp.eventLogger.isSome
  if isLoggingEvents != shouldBeEnabled then
    if !shouldBeEnabled then
      { mp with eventLogger := none }
    else
      { mp with eventLogger := some (EventLogger.new newQueue) }
  else mp

/-! ## `MidiProcessor::EventLogger::Display` -/

/-- The `juce::var` values the display stores in its `Message` object. -/
inductive Var where
  | undefined
  | int (v : Int)
  | bool (b : Bool)
  deriving DecidableEq

/-- A `juce::DynamicObject` as its ordered set of named properties. -/
abbrev DynamicObject := List (String × Var)

/-- JUCE's `DynamicObject::setProperty`: replaces the value of a property that exists,
adds the property at the end otherwise. -/
def setProperty (o : DynamicObject) (name : String) (v : Var) : DynamicObject :=
  if o.any (fun p => p.1 == name) then
    o.map (fun p => if p.1 == name then (name, v) else p)
  else o ++ [(name, v)]

/-- JUCE's `var::getProperty(name, defaultValue)` on a dynamic object. -/
def getProperty (o : DynamicObject) (name : String) (defaultValue : Var) : Var :=
  match o.find? (fun p => p.1 == name) with
  | some p => p.2
  | none => defaultValue

/-- JUCE's `juce::Result`: success, or failure with a message. -/
inductive Result where
  | ok
  | fail (errorMessage : String)
  deriving DecidableEq

/-- What one call `engine->evaluate(code, &filterResult)` leaves behind: the returned
value as the `if` sees it (converted to `bool`), the result written through the
pointer, and the engine and the registered `Message` object after the run. -/
structure Evaluation (Eng : Type) where
  value : Bool
  result : Result
  engine : Eng
  data : DynamicObject

/-- The members of `Display` that the event list handling reads or writes. `engine` is
the state of the `juce::JavascriptEngine`, which is declared outside these sources. -/
structure Display (Eng : Type) where
  engine : Eng
  data : DynamicObject
  filterExpression : String
  filterResult : Result
  allInputEvents : List HiseEvent
  allOutputEvents : List HiseEvent
  events : List HiseEvent
  processButtonToggleState : Bool

/-- The nine `data->setProperty(...)` calls at the top of the loop body of
`rebuildEventsToShow`, for the event `arrayToUse[i]`. -/
def setMessageProperties (data : DynamicObject) (e : HiseEvent) : DynamicObject :=
  let data := setProperty data "number" (.int e.noteNumber)
  let data := setProperty data "velocity" (.int e.velocity)
  let data := setProperty data "type" (.int e.type)
  let data := setProperty data "channel" (.int e.channel)
  let data := setProperty data "event_id" (.int e.eventId)
  let data := setProperty data "timestamp" (.int e.timeStamp)
  let data := setProperty data "artificial" (.bool e.artificial)
  let data := setProperty data "ignored" (.bool e.ignored)
  setProperty data "timer" (.bool e.timerEvent)

/-- One run of the loop body of `rebuildEventsToShow` up to the `break` test: the
properties are set, the filter is evaluated unless it is empty (`||` short-circuits), and
the event is inserted at index 0 when it passes. -/
def Display.rebuildStep {Eng : Type} (evaluate : Eng → DynamicObject → String → Evaluation Eng)
    (e : HiseEvent) (d : Display Eng) : Display Eng :=
  let data := setMessageProperties d.data e
  if d.filterExpression = "" then
    { d with data := data, events := e :: d.events }
  else
    let r := evaluate d.engine data d.filterExpression
    { d with engine := r.engine, data := r.data, filterResult := r.result,
             events := if r.value then e :: d.events else d.events }

/-- The loop `for (int i = arrayToUse.size() - 1; i >= 0; i--)` of `rebuildEventsToShow`,
over the elements still to visit, last index first; `if (events.size() == numToDisplay)
break;` ends it early. -/
def Display.rebuildLoop {Eng : Type} (evaluate : Eng → DynamicObject → String → Evaluation Eng)
    (numToDisplay : Int) : List HiseEvent → Display Eng → Display Eng
  | [], d => d
  | e :: rest, d =>
    let d1 := d.rebuildStep evaluate e
    if (d1.events.length : Int) = numToDisplay then d1
    else Display.rebuildLoop evaluate numToDisplay rest d1

/-- The list `rebuildEventsToShow` reads:
`processButton.getToggleState() ? allOutputEvents : allInputEvents`. -/
def Display.arrayToUse {Eng : Type} (d : Display Eng) : List HiseEvent :=
  if d.processButtonToggleState then d.allOutputEvents else d.allInputEvents

/-- Source: `void rebuildEventsToShow()`. Here `numToDisplay` is the value of
`roundToInt(std::floor((float)(getHeight() - TopHeight) / (float)RowHeight))` for the
height the component has at the call; `repaint()` does not touch the members. -/
def Display.rebuildEventsToShow {Eng : Type}
    (evaluate : Eng → DynamicObject → String → Evaluation Eng) (numToDisplay : Int)
    (d : Display Eng) : Display Eng :=
  let d0 := { d with events := [] }
  Display.rebuildLoop evaluate numToDisplay d0.arrayToUse.reverse d0

/-- Source: `clearButton.onClick`:
`allInputEvents.clear(); allOutputEvents.clear(); rebuildEventsToShow();`. -/
def Display.clearButtonOnClick {Eng : Type}
    (evaluate : Eng → DynamicObject → String → Evaluation Eng) (numToDisplay : Int)
    (d : Display Eng) : Display Eng :=
  Display.rebuildEventsToShow evaluate numToDisplay
    { d with allInputEvents := [], allOutputEvents := [] }

/-- Source: `void textEditorReturnKeyPressed(TextEditor&)`:
`filterExpression = filter.getText(); rebuildEventsToShow();`. -/
def Display.textEditorReturnKeyPressed {Eng : Type}
    (evaluate : Eng → DynamicObject → String → Evaluation Eng) (numToDisplay : Int)
    (filterText : String) (d : Display Eng) : Display Eng :=
  Display.rebuildEventsToShow evaluate numToDisplay { d with filterExpression := filterText }

end hise

namespace hise

/-! ## Sample inputs -/

/-- A queue for examples: `push` appends (the capacity is not enforced). -/
def listPush (q : List HiseEvent) (e : HiseEvent) : List HiseEvent := q ++ [e]

/-- An engine for examples: it has no state of its own and evaluates every non-empty
expression as the tooltip's `Message.getNoteNumber() > 64`, where `getNoteNumber` is
`GET_PROPERTY("number")`, that is `getProperty("number", 0)`. -/
def noteAbove64 (_ : Unit) (data : DynamicObject) (_ : String) : Evaluation Unit :=
  { value := (match getProperty data "number" (.int 0) with
              | .int v => decide (64 < v)
              | _ => false),
    result := .ok, engine := (), data := data }

/-- A note-on event for examples, with the given note number and event id. -/
def sampleNote (noteNumber eventId : Int) : HiseEvent :=
  { noteNumber := noteNumber, velocity := 100, type := 1, channel := 1, eventId := eventId,
    timeStamp := 0, artificial := false, ignored := false, timerEvent := false }

/-- A display for examples: three input events, two output events, showing the output. -/
def sampleDisplay (filterExpression : String) : Display Unit :=
  { engine := (), data := [], filterExpression := filterExpression, filterResult := .ok,
    allInputEvents := [sampleNote 60 1, sampleNote 70 2, sampleNote 80 3],
    allOutputEvents := [sampleNote 60 1, sampleNote 80 3],
    events := [sampleNote 1 9], processButtonToggleState := true }

end hise

namespace hise

/-! ## `DebugInformation` and `getArrayTextForVar` (`DebugHelpers.cpp`) -/

/-- The rows of a `DebugInformation` (`enum class Row`, declared in the header). -/
inductive DebugInformation.Row where
  | Name
  | Type
  | DataType
  | Value
  | numRows
  deriving DecidableEq

/-- A `DebugInformation` as the texts its four virtual accessors return:
`getTextForName()`, `getTextForType()`, `getTextForDataType()`, `getTextForValue()`. -/
structure DebugInformation where
  getTextForName : String
  getTextForType : String
  getTextForDataType : String
  getTextForValue : String

/-- Source: `String DebugInformation::getTextForRow(Row r)`. -/
def DebugInformation.getTextForRow (info : DebugInformation) :
    DebugInformation.Row → String
  | .Name => info.getTextForName
  | .Type => info.getTextForType
  | .DataType => info.getTextForDataType
  | .Value => info.getTextForValue
  | .numRows => ""

/-- Source: `String DebugInformation::toString()`: four statements, each appending
its pieces to `output` from left to right. -/
def DebugInformation.toString (info : DebugInformation) : String :=
  let output := ""
  let output := output ++ "Name: " ++ info.getTextForRow .Name ++ ", "
  let output := output ++ "Type: " ++ info.getTextForRow .Type ++ ", "
  let output := output ++ "DataType:" ++ info.getTextForRow .DataType ++ ", "
  let output := output ++ "Value: " ++ info.getTextForRow .Value
  output

/-- A `juce::var` as `getArrayTextForVar` tells its cases apart: an array of values, an
object that is a `DebugableObject` (with its `getDebugName()`), any other value (with its
`toString()`), and the void value `var()`, whose `toString()` is empty. -/
inductive JuceVar where
  | void
  | value (toString : String)
  | debugObject (getDebugName : String)
  | array (elements : List JuceVar)

/-- The text of `getArrayTextForVar(arrayToStringify[i])` given the texts of the
elements: `juce::Array::operator[]` returns `var()` for an index out of range, and the
text of `var()` is its `toString()`, the empty string. -/
def textAtIndex (texts : List String) (i : Int) : String :=
  if 0 ≤ i then texts.getD i.toNat "" else ""

/-- The loop `for (int i = 0; i < maxSize - 1; i++) output << text(i) << ", ";`: one
round for each `i` from 0 up to `maxSize - 2` (none when `maxSize - 1` is not positive). -/
def arrayTextLoop (texts : List String) (maxSize : Int) (output : String) : String :=
  (List.range (maxSize - 1).toNat).foldl
    (fun output i => output ++ textAtIndex texts (i : Int) ++ ", ") output

/-- The array branch of `getArrayTextForVar`, given the number of elements and the texts
of the elements at the indices below `maxSize`. -/
def arrayText (size : Nat) (texts : List String) : String :=
  let output := "["
  let maxSize : Int := min 4 (size : Int)
  let output := arrayTextLoop texts maxSize output
  let output := output ++ textAtIndex texts (maxSize - 1)
  if maxSize != (size : Int) then output ++ ", (...)]" else output ++ "]"

mutual
/-- Source: `String getArrayTextForVar(const var& value)`. The recursive calls on the
elements are made by `firstTexts`. -/
def getArrayTextForVar : JuceVar → String
  | .array arrayToStringify => arrayText arrayToStringify.length (firstTexts 4 arrayToStringify)
  | .debugObject getDebugName => getDebugName
  | .value toString => toString
  | .void => ""
/-- The results of `getArrayTextForVar` on the first `n` elements of an array (all of
them when there are fewer), in order. -/
def firstTexts : Nat → List JuceVar → List String
  | 0, _ => []
  | _, [] => []
  | n + 1, v :: rest => getArrayTextForVar v :: firstTexts n rest
end

/-- Source: `String DebugInformation::varArrayToString(const Array<var>&)`:
`var ar(arrayToStringify); return getArrayTextForVar(ar);`. -/
def DebugInformation.varArrayToString (arrayToStringify : List JuceVar) : String :=
  let ar := JuceVar.array arrayToStringify
  getArrayTextForVar ar

end hise

namespace snex

/-! ## Configuration flags of `hi_snex.h`

A preprocessor flag is the integer an `#if` sees for it; `none` stands for a flag that
nothing has defined before the header is read. -/

/-- The value of `HISE_INCLUDE_SNEX` after lines 83 to 93: a value defined beforehand is
kept (`#ifndef`); otherwise it is 0 when `__arm__` or `__arm64__` is defined, else 1 when
`USE_BACKEND` is non-zero, else 0. -/
def HISE_INCLUDE_SNEX (predefined : Option Int) (arm arm64 : Bool) (USE_BACKEND : Int) : Int :=
  match predefined with
  | some v => v
  | none =>
    if arm || arm64 then 0
    else if USE_BACKEND != 0 then 1
    else 0

/-- The value of `HISE_INCLUDE_SNEX_X64_CODEGEN` after lines 96 to 102: a value defined
beforehand is kept; otherwise it is 0 when `JUCE_ARM` is non-zero and expands to
`HISE_INCLUDE_SNEX` otherwise. -/
def HISE_INCLUDE_SNEX_X64_CODEGEN (predefined : Option Int) (JUCE_ARM : Int)
    (includeSnex : Int) : Int :=
  match predefined with
  | some v => v
  | none => if JUCE_ARM != 0 then 0 else includeSnex

/-- Whether the placeholder `struct asmjit::x86::Compiler` is declared:
`#if !HISE_INCLUDE_SNEX_X64_CODEGEN`. -/
def placeholderCompilerDeclared (x64Codegen : Int) : Bool :=
  !(x64Codegen != 0)

/-! ## `ApiHelpers::getColourAndLetterForType` -/

/-- A `juce::Colour` as the expression that builds it: a named constant of
`juce::Colours`, `withSaturation` applied to a colour with its argument as written in the
source, the result of `Types::Helpers::getColourForType` for a type id, or any other
colour given by its ARGB value. -/
inductive Colour where
  | named (name : String)
  | withSaturation (base : Colour) (saturation : String)
  | forType (typeId : Int)
  | argb (value : Nat)
  deriving DecidableEq

/-- Source: `enum DebugObjectTypes`, `LocalFunction = 9000` and its successors. -/
inductive ApiHelpers.DebugObjectTypes where
  | LocalFunction
  | ApiCall
  | Template
  | Constants
  | BasicTypes
  | numDebugObjectTypes
  deriving DecidableEq

/-- The integer value of a `DebugObjectTypes` enumerator. -/
def ApiHelpers.DebugObjectTypes.toInt : ApiHelpers.DebugObjectTypes → Int
  | .LocalFunction => 9000
  | .ApiCall => 9001
  | .Template => 9002
  | .Constants => 9003
  | .BasicTypes => 9004
  | .numDebugObjectTypes => 9005

/-- Source: `static void getColourAndLetterForType(int type, Colour& colour, char& letter)`.
The two reference parameters are the last two arguments and the returned pair.
`Types::ID::Dynamic`, `Types::Helpers::getColourForType` and `Types::Helpers::getTypeChar`
are declared outside these sources and are parameters. -/
def ApiHelpers.getColourAndLetterForType (Dynamic : Int) (getColourForType : Int → Colour)
    (getTypeChar : Int → Char) (type : Int) (colour : Colour) (letter : Char) :
    Colour × Char :=
  let typedType := type
  let (colour, letter) :=
    if typedType < Dynamic then (getColourForType typedType, getTypeChar typedType)
    else (colour, letter)
  let (colour, letter) :=
    if type = ApiHelpers.DebugObjectTypes.Template.toInt then
      (Colour.withSaturation (.named "yellow") "0.3f", 'T')
    else (colour, letter)
  let (colour, letter) :=
    if type = ApiHelpers.DebugObjectTypes.Constants.toInt then (Colour.named "blanchedalmond", 'C')
    else (colour, letter)
  let (colour, letter) :=
    if type = ApiHelpers.DebugObjectTypes.BasicTypes.toInt then (Colour.named "white", 'T')
    else (colour, letter)
  let (colour, letter) :=
    if type = ApiHelpers.DebugObjectTypes.ApiCall.toInt then (Colour.named "aqua", 'A')
    else (colour, letter)
  let (colour, letter) :=
    if type = ApiHelpers.DebugObjectTypes.LocalFunction.toInt then (Colour.named "dodgerblue", 'F')
    else (colour, letter)
  (colour, letter)

end snex

namespace hise

/-! ## `MidiProcessorChain::setArtificialTimestamp` -/

/-- The `(int)` conversion of a `juce::var` holding one of the stored values. -/
def Var.toInt : Var → Int
  | .int v => v
  | .bool b => if b then 1 else 0
  | .undefined => 0

/-- Source: `#define GET_PROPERTY(propertyId) args.thisObject.getProperty(propertyId, 0)`. -/
def GET_PROPERTY (thisObject : DynamicObject) (propertyId : String) : Var :=
  getProperty thisObject propertyId (.int 0)

/-- One `SET_METHOD(methodName, expression)` line of the `Display` constructor. The
expression is `GET_PROPERTY(propertyId)`, or, with `typeToCompare` set,
`(int)GET_PROPERTY(propertyId) == (int)HiseEvent::Type::T`. -/
structure MessageMethod where
  methodName : String
  propertyId : String
  typeToCompare : Option Int

/-- The value a method returns when the engine calls it on `thisObject`. -/
def MessageMethod.call (m : MessageMethod) (thisObject : DynamicObject) : Var :=
  match m.typeToCompare with
  | none => GET_PROPERTY thisObject m.propertyId
  | some t => .bool ((GET_PROPERTY thisObject m.propertyId).toInt == t)

/-- JUCE's `Array::removeRange(startIndex, numberToRemove)`: the elements from
`startIndex` up to `startIndex + numberToRemove` are removed, the range being clipped to
the array. -/
def removeRange (l : List HiseEvent) (startIndex numberToRemove : Nat) : List HiseEvent :=
  l.take startIndex ++ l.drop (startIndex + numberToRemove)

/-- Source: `void timerCallback()`. The display's `logger` reference is an argument and
is returned with its queues after the two `callForEveryElementInQueue` calls.
`hise::LockfreeQueue` is declared outside these sources: `isEmpty` and `drain` (the
elements handed to the callback, oldest first, and the queue left behind) are
parameters. -/
def Display.timerCallback {Eng Q : Type} (isEmpty : Q → Bool)
    (drain : Q → List HiseEvent × Q)
    (evaluate : Eng → DynamicObject → String → Evaluation Eng) (numToDisplay : Int)
    (logger : Option (EventLogger Q)) (d : Display Eng) :
    Option (EventLogger Q) × Display Eng :=
  match logger with
  | none => (none, d)
  | some l =>
    let didSomething := !isEmpty l.inputQueue || !isEmpty l.outputQueue
    let inputDrained := drain l.inputQueue
    let d := { d with allInputEvents := d.allInputEvents ++ inputDrained.1 }
    let outputDrained := drain l.outputQueue
    let d := { d with allOutputEvents := d.allOutputEvents ++ outputDrained.1 }
    let d :=
      if d.allInputEvents.length > 2048 then
        { d with allInputEvents := removeRange d.allInputEvents 0 1024 }
      else d
    let d :=
      if d.allOutputEvents.length > 2048 then
        { d with allOutputEvents := removeRange d.allOutputEvents 0 1024 }
      else d
    let d := if didSomething then d.rebuildEventsToShow evaluate numToDisplay else d
    (some { inputQueue := inputDrained.2, outputQueue := outputDrained.2 }, d)

end hise

namespace hise

/-! ## The calls `rebuildEventsToShow` makes to the filter engine -/

/-- One call `engine->evaluate(filterExpression, &filterResult)` made by the loop of
`rebuildEventsToShow`: the event `arrayToUse[i]` of that round, the engine state the call
starts from, the `Message` object as it is when the call is made, and the code passed. -/
structure FilterCall (Eng : Type) where
  event : HiseEvent
  engine : Eng
  data : DynamicObject
  code : String

/-- The calls to `engine->evaluate` the loop of `rebuildEventsToShow` makes, in the order
it makes them. A round calls the engine once, after its nine `setProperty` calls, unless
the filter expression is empty; the state goes from round to round by `rebuildStep` and
the loop ends on the same `break` test as `rebuildLoop`. -/
def Display.rebuildLoopCalls {Eng : Type}
    (evaluate : Eng → DynamicObject → String → Evaluation Eng) (numToDisplay : Int) :
    List HiseEvent → Display Eng → List (FilterCall Eng)
  | [], _ => []
  | e :: rest, d =>
    let call : List (FilterCall Eng) :=
      if d.filterExpression = "" then []
      else [⟨e, d.engine, setMessageProperties d.data e, d.filterExpression⟩]
    let d1 := d.rebuildStep evaluate e
    if (d1.events.length : Int) = numToDisplay then call
    else call ++ Display.rebuildLoopCalls evaluate numToDisplay rest d1

/-- The calls to `engine->evaluate` one run of `rebuildEventsToShow` makes. -/
def Display.rebuildEventsToShowCalls {Eng : Type}
    (evaluate : Eng → DynamicObject → String → Evaluation Eng) (numToDisplay : Int)
    (d : Display Eng) : List (FilterCall Eng) :=
  let d0 := { d with events := [] }
  Display.rebuildLoopCalls evaluate numToDisplay d0.arrayToUse.reverse d0

/-- Whether a call returned a value the `if` takes as true. -/
def FilterCall.passed {Eng : Type} (evaluate : Eng → DynamicObject → String → Evaluation Eng)
    (c : FilterCall Eng) : Bool :=
  (evaluate c.engine c.data c.code).value

end hise

/-! # Theorems -/

namespace snex.jit.OptimizationIds

/-- C1 (as stated, refuted): it is not the case that `getDefaultIds()` omits
`NoSafeChecks`. -/
theorem getDefaultIds_omits_NoSafeChecks_false : ¬ (NoSafeChecks ∉ getDefaultIds) := by
  decide

/-- C1 (amended): the default optimisation set returned by `getDefaultIds()` contains
the "no safety checks" identifier `NoSafeChecks`; it is the same list as `getAllIds()`. -/
theorem getDefaultIds_contains_NoSafeChecks :
    NoSafeChecks ∈ getDefaultIds ∧ getDefaultIds = getAllIds := by
  decide

/-- C2 (as stated, refuted): `getAllIds()` does not contain every identifier of the
claim's list, `AutoVectorisation` is missing. -/
theorem getAllIds_contains_named_false :
    ¬ (∀ id ∈ [ConstantFolding, Inlining, DeadCodeElimination, BinaryOpOptimisation,
        LoopOptimisation, AutoVectorisation, NoSafeChecks], id ∈ getAllIds) := by
  decide

/-- C2 (amended): `getAllIds()` contains `ConstantFolding`, `Inlining`,
`DeadCodeElimination`, `BinaryOpOptimisation`, `LoopOptimisation` and `NoSafeChecks`
(and `AsmOptimisation`), and it does not contain `AutoVectorisation`. -/
theorem getAllIds_contains_named :
    (∀ id ∈ [ConstantFolding, Inlining, DeadCodeElimination, BinaryOpOptimisation,
        LoopOptimisation, AsmOptimisation, NoSafeChecks], id ∈ getAllIds) ∧
    AutoVectorisation ∉ getAllIds := by
  decide

/-- C3: the declared optimisation identifiers are pairwise distinct strings, each the
spelling of its own name; `getAllIds()` and `getDefaultIds()` list no identifier twice;
toggling one declared identifier in any set of ids neither adds nor removes another
declared identifier. -/
theorem optimizationIds_distinct :
    Function.Injective Declaration.value ∧
    (allDeclarations.map Declaration.value).Nodup ∧
    (allDeclarations.map Declaration.value =
      ["SmallObjectOptimisation", "ConstantFolding", "Inlining", "AutoVectorisation",
       "DeadCodeElimination", "BinaryOpOptimisation", "LoopOptimisation", "AsmOptimisation",
       "NoSafeChecks"]) ∧
    getAllIds.Nodup ∧ getDefaultIds.Nodup ∧
    (∀ (i j : Declaration) (ids : List String), i ≠ j →
      (j.value ∈ toggleId i.value ids ↔ j.value ∈ ids)) := by
  have hinj : Function.Injective Declaration.value := by
    intro a b h
    cases a <;> cases b <;> first | rfl | (exact absurd h (by decide))
  refine ⟨hinj, by decide, by decide, by decide, by decide, ?_⟩
  intro i j ids hij
  have hne : j.value ≠ i.value := fun h => hij (hinj h).symm
  unfold toggleId
  split
  · simp [List.mem_filter, hne]
  · simp [hne]

/-- C3, at a concrete input: toggling `Inlining` in the default set leaves `NoSafeChecks`
enabled. -/
theorem optimizationIds_distinct_witness :
    (Declaration.noSafeChecks.value ∈ toggleId Declaration.inlining.value getDefaultIds ↔
      Declaration.noSafeChecks.value ∈ getDefaultIds) :=
  optimizationIds_distinct.2.2.2.2.2 .inlining .noSafeChecks getDefaultIds (by decide)

end snex.jit.OptimizationIds

namespace snex.jit

/-- C5: in every handler state, declaring a name that is already bound in the scope
declared into is rejected with DuplicateNameError, while declaring the same name in a
child scope entered from it succeeds: the child then binds the name to the new symbol
and the enclosing scope keeps its own binding (shadowing). -/
theorem declare_duplicate_rejected_child_accepted {Symbol : Type}
    (h : NamespaceHandler Symbol) (name : String) (s : Scope Symbol) (old new : Symbol)
    (kind : ScopeKind) (hs : h.currentScope = some s) (hb : s.lookupLocal name = some old) :
    h.declare name new = .error .DuplicateNameError ∧
    ∃ h1, (h.enterScope kind).2.declare name new = .ok h1 ∧
      (∃ c, h1.currentScope = some c ∧ c.parent = some h.current ∧ c.kind = kind ∧
        c.lookupLocal name = some new) ∧
      h1.scopes[h.current]? = some s := by
  constructor
  · simp [NamespaceHandler.declare, hs, hb]
  · have hlt : h.current < h.scopes.length := by
      unfold NamespaceHandler.currentScope at hs
      exact (List.getElem?_eq_some.mp hs).1
    have hs1 : h.scopes[h.current]? = some s := hs
    let c : Scope Symbol := { kind := kind, parent := some h.current, symbols := [(name, new)] }
    refine ⟨{ scopes := h.scopes ++ [c], current := h.scopes.length }, ?_, ?_, ?_⟩
    · simp [NamespaceHandler.declare, NamespaceHandler.enterScope,
        NamespaceHandler.currentScope, Scope.lookupLocal, List.set_append_right]
    · refine ⟨{ kind := kind, parent := some h.current, symbols := [(name, new)] }, ?_, rfl,
        rfl, ?_⟩
      · simp [NamespaceHandler.currentScope, List.set_append_right]
      · simp [Scope.lookupLocal]
    · simp [List.set_append_right, List.getElem?_append_left hlt, hs1]

/-- C5, at a concrete input: `x` is bound in the global scope; declaring `x` again is a
DuplicateNameError, declaring it in a block entered from there succeeds. -/
theorem declare_duplicate_rejected_child_accepted_witness :
    let h : NamespaceHandler Nat :=
      { scopes := [{ kind := .global, parent := none, symbols := [("x", 1)] }], current := 0 }
    h.declare "x" 2 = .error .DuplicateNameError ∧
    ∃ h1, (h.enterScope .block).2.declare "x" 2 = .ok h1 ∧
      (∃ c, h1.currentScope = some c ∧ c.parent = some h.current ∧ c.kind = .block ∧
        c.lookupLocal "x" = some 2) ∧
      h1.scopes[h.current]? =
        some { kind := .global, parent := none, symbols := [("x", 1)] } :=
  declare_duplicate_rejected_child_accepted _ "x" _ 1 2 .block rfl rfl

/-- C6: template instantiation is idempotent: for every engine state, template symbol
and ordered list of bound parameters, a second `instantiate` with the identical key
returns the instance the first one returned, leaves the engine as the first left it and
in particular does not run code generation again. -/
theorem instantiate_idempotent {Sym Par Inst : Type} [DecidableEq Sym] [DecidableEq Par]
    (codegen : Nat → TemplateKey Sym Par → Inst) (templateSymbol : Sym)
    (boundParameters : List Par) (t : TemplateEngine Sym Par Inst) :
    ((t.instantiate codegen templateSymbol boundParameters).2.instantiate codegen
        templateSymbol boundParameters).1 =
      (t.instantiate codegen templateSymbol boundParameters).1 ∧
    ((t.instantiate codegen templateSymbol boundParameters).2.instantiate codegen
        templateSymbol boundParameters).2 =
      (t.instantiate codegen templateSymbol boundParameters).2 ∧
    ((t.instantiate codegen templateSymbol boundParameters).2.instantiate codegen
        templateSymbol boundParameters).2.codegenCount =
      (t.instantiate codegen templateSymbol boundParameters).2.codegenCount := by
  cases hc : t.cached ⟨templateSymbol, boundParameters⟩ with
  | some i => simp [TemplateEngine.instantiate, hc]
  | none =>
    have hf : List.find? (fun p => decide (p.1 = (⟨templateSymbol, boundParameters⟩ :
        TemplateKey Sym Par))) t.cache = none := by
      simpa [TemplateEngine.cached] using hc
    have h2 : TemplateEngine.cached
        ({ cache := t.cache ++ [(⟨templateSymbol, boundParameters⟩,
              codegen t.codegenCount ⟨templateSymbol, boundParameters⟩)],
           codegenCount := t.codegenCount + 1 } : TemplateEngine Sym Par Inst)
        ⟨templateSymbol, boundParameters⟩ =
        some (codegen t.codegenCount ⟨templateSymbol, boundParameters⟩) := by
      simp [TemplateEngine.cached, List.find?_append, hf]
    simp [TemplateEngine.instantiate, hc, h2]

end snex.jit

namespace hise

/-- C7: without an attached logger `logIfEnabled` changes nothing, and that is the case
after `setEnableEventLogger(false)`; with a logger attached the event is pushed to the
input queue when `beforeProcessing` is true and to the output queue otherwise, the other
queue and the other members staying as they were. -/
theorem logIfEnabled_drops_or_pushes_one {Q : Type} (push : Q → HiseEvent → Q)
    (newQueue : Nat → Q) (e : HiseEvent) (beforeProcessing : Bool) (mp : MidiProcessor Q) :
    (mp.eventLogger = none → mp.logIfEnabled push e beforeProcessing = mp) ∧
    (mp.setEnableEventLogger newQueue false).eventLogger = none ∧
    (mp.setEnableEventLogger newQueue false).logIfEnabled push e beforeProcessing =
      mp.setEnableEventLogger newQueue false ∧
    (∀ l : EventLogger Q, mp.eventLogger = some l →
      mp.logIfEnabled push e true =
        ⟨mp.processThisMessage, mp.numThisTime, some ⟨push l.inputQueue e, l.outputQueue⟩⟩ ∧
      mp.logIfEnabled push e false =
        ⟨mp.processThisMessage, mp.numThisTime, some ⟨l.inputQueue, push l.outputQueue e⟩⟩) := by
  have hoff : (mp.setEnableEventLogger newQueue false).eventLogger = none := by
    cases h : mp.eventLogger <;> simp [MidiProcessor.setEnableEventLogger, h]
  refine ⟨?_, hoff, ?_, ?_⟩
  · intro h
    simp [MidiProcessor.logIfEnabled, h]
  · simp [MidiProcessor.logIfEnabled, hoff]
  · intro l h
    simp [MidiProcessor.logIfEnabled, h]

/-- C7, at a concrete input: a processor with a logger whose queues hold one event each. -/
theorem logIfEnabled_drops_or_pushes_one_witness :
    (MidiProcessor.logIfEnabled listPush (sampleNote 61 2) true
        ⟨true, 0, some ⟨[sampleNote 60 1], [sampleNote 60 1]⟩⟩ =
      ⟨true, 0, some ⟨[sampleNote 60 1, sampleNote 61 2], [sampleNote 60 1]⟩⟩) ∧
    (MidiProcessor.logIfEnabled listPush (sampleNote 61 2) false
        ⟨true, 0, some ⟨[sampleNote 60 1], [sampleNote 60 1]⟩⟩ =
      ⟨true, 0, some ⟨[sampleNote 60 1], [sampleNote 60 1, sampleNote 61 2]⟩⟩) :=
  (logIfEnabled_drops_or_pushes_one listPush (fun _ => []) (sampleNote 61 2) true
    ⟨true, 0, some ⟨[sampleNote 60 1], [sampleNote 60 1]⟩⟩).2.2.2
    ⟨[sampleNote 60 1], [sampleNote 60 1]⟩ rfl

/-- The loop of `rebuildEventsToShow` writes neither event list, nor the toggle state,
nor the filter expression. -/
theorem Display.rebuildLoop_frame {Eng : Type}
    (evaluate : Eng → DynamicObject → String → Evaluation Eng) (numToDisplay : Int)
    (l : List HiseEvent) (d : Display Eng) :
    (Display.rebuildLoop evaluate numToDisplay l d).allInputEvents = d.allInputEvents ∧
    (Display.rebuildLoop evaluate numToDisplay l d).allOutputEvents = d.allOutputEvents ∧
    (Display.rebuildLoop evaluate numToDisplay l d).processButtonToggleState =
      d.processButtonToggleState ∧
    (Display.rebuildLoop evaluate numToDisplay l d).filterExpression = d.filterExpression := by
  induction l generalizing d with
  | nil => simp [Display.rebuildLoop]
  | cons e rest ih =>
    have hstep : (d.rebuildStep evaluate e).allInputEvents = d.allInputEvents ∧
        (d.rebuildStep evaluate e).allOutputEvents = d.allOutputEvents ∧
        (d.rebuildStep evaluate e).processButtonToggleState = d.processButtonToggleState ∧
        (d.rebuildStep evaluate e).filterExpression = d.filterExpression := by
      unfold Display.rebuildStep
      split <;> simp
    simp only [Display.rebuildLoop]
    split
    · exact hstep
    · obtain ⟨h1, h2, h3, h4⟩ := ih (d.rebuildStep evaluate e)
      exact ⟨h1.trans hstep.1, h2.trans hstep.2.1, h3.trans hstep.2.2.1,
        h4.trans hstep.2.2.2⟩

/-- Every event the loop leaves in `events` was there before or is one of the visited
elements; with a non-empty filter expression a visited element is only inserted after
the expression evaluated to true on the properties set from that element. -/
theorem Display.rebuildLoop_mem {Eng : Type}
    (evaluate : Eng → DynamicObject → String → Evaluation Eng) (numToDisplay : Int)
    (l : List HiseEvent) (d : Display Eng) (x : HiseEvent)
    (hx : x ∈ (Display.rebuildLoop evaluate numToDisplay l d).events) :
    x ∈ d.events ∨ (x ∈ l ∧ (d.filterExpression ≠ "" → ∃ eng data,
      (evaluate eng (setMessageProperties data x) d.filterExpression).value = true)) := by
  induction l generalizing d with
  | nil => exact Or.inl (by simpa [Display.rebuildLoop] using hx)
  | cons e rest ih =>
    have hexpr : (d.rebuildStep evaluate e).filterExpression = d.filterExpression := by
      unfold Display.rebuildStep
      split <;> simp
    have hstep : x ∈ (d.rebuildStep evaluate e).events →
        x ∈ d.events ∨ (x = e ∧ (d.filterExpression ≠ "" → ∃ eng data,
          (evaluate eng (setMessageProperties data x) d.filterExpression).value = true)) := by
      unfold Display.rebuildStep
      by_cases hf : d.filterExpression = ""
      · simp only [hf, if_true]
        intro h
        rcases List.mem_cons.mp h with h | h
        · exact Or.inr ⟨h, fun hne => absurd rfl hne⟩
        · exact Or.inl h
      · simp only [hf, if_false]
        by_cases hv : (evaluate d.engine (setMessageProperties d.data e)
            d.filterExpression).value = true
        · simp only [hv, if_true]
          intro h
          rcases List.mem_cons.mp h with h | h
          · exact Or.inr ⟨h, fun _ => ⟨d.engine, d.data, by rw [h]; exact hv⟩⟩
          · exact Or.inl h
        · simp only [hv]
          intro h
          exact Or.inl (by simpa using h)
    simp only [Display.rebuildLoop] at hx
    have hin : x ∈ (d.rebuildStep evaluate e).events ∨ (x ∈ rest ∧
        ((d.rebuildStep evaluate e).filterExpression ≠ "" → ∃ eng data,
          (evaluate eng (setMessageProperties data x)
            (d.rebuildStep evaluate e).filterExpression).value = true)) := by
      split at hx
      · exact Or.inl hx
      · exact ih _ hx
    rw [hexpr] at hin
    rcases hin with h | ⟨h, hp⟩
    · rcases hstep h with h1 | ⟨h1, hp⟩
      · exact Or.inl h1
      · exact Or.inr ⟨by simp [h1], hp⟩
    · exact Or.inr ⟨List.mem_cons_of_mem _ h, hp⟩

/-- With an empty filter expression the loop prepends, in reverse visiting order, the
first `k` visited elements, and it stops before the end of the list only when `events`
has reached `numToDisplay` elements. -/
theorem Display.rebuildLoop_empty_filter {Eng : Type}
    (evaluate : Eng → DynamicObject → String → Evaluation Eng) (numToDisplay : Int)
    (l : List HiseEvent) (d : Display Eng) (hf : d.filterExpression = "") :
    ∃ k, k ≤ l.length ∧
      (Display.rebuildLoop evaluate numToDisplay l d).events = (l.take k).reverse ++ d.events ∧
      (k = l.length ∨
        ((Display.rebuildLoop evaluate numToDisplay l d).events.length : Int) = numToDisplay) := by
  induction l generalizing d with
  | nil => exact ⟨0, le_refl _, by simp [Display.rebuildLoop], Or.inl rfl⟩
  | cons e rest ih =>
    have hstep : d.rebuildStep evaluate e =
        { d with data := setMessageProperties d.data e, events := e :: d.events } := by
      simp [Display.rebuildStep, hf]
    simp only [Display.rebuildLoop]
    split
    · rename_i hlen
      refine ⟨1, by simp, ?_, Or.inr hlen⟩
      rw [hstep]
      simp
    · have hf1 : (d.rebuildStep evaluate e).filterExpression = "" := by
        rw [hstep]
        exact hf
      obtain ⟨k, hk, hev, hstop⟩ := ih (d.rebuildStep evaluate e) hf1
      refine ⟨k + 1, by simpa using hk, ?_, ?_⟩
      · rw [hev, hstep]
        simp
      · rcases hstop with h | h
        · exact Or.inl (by simp [h])
        · exact Or.inr h

/-- C8: after the clear button's handler `allInputEvents`, `allOutputEvents` and the
displayed `events` are all empty, whatever the lists held, whatever the filter
expression, the toggle state of the process button and the number of rows. -/
theorem clearButtonOnClick_clears_all {Eng : Type}
    (evaluate : Eng → DynamicObject → String → Evaluation Eng) (numToDisplay : Int)
    (d : Display Eng) :
    (d.clearButtonOnClick evaluate numToDisplay).allInputEvents = [] ∧
    (d.clearButtonOnClick evaluate numToDisplay).allOutputEvents = [] ∧
    (d.clearButtonOnClick evaluate numToDisplay).events = [] := by
  cases hb : d.processButtonToggleState <;>
    simp [Display.clearButtonOnClick, Display.rebuildEventsToShow, Display.arrayToUse,
      Display.rebuildLoop, hb]

/-- C9: `rebuildEventsToShow` leaves both event lists as they are, and every event it
displays is an element of `allOutputEvents` when the process button is toggled on and an
element of `allInputEvents` when it is toggled off. -/
theorem rebuildEventsToShow_shows_selected_list {Eng : Type}
    (evaluate : Eng → DynamicObject → String → Evaluation Eng) (numToDisplay : Int)
    (d : Display Eng) :
    (d.rebuildEventsToShow evaluate numToDisplay).allInputEvents = d.allInputEvents ∧
    (d.rebuildEventsToShow evaluate numToDisplay).allOutputEvents = d.allOutputEvents ∧
    (d.processButtonToggleState = true →
      ∀ e ∈ (d.rebuildEventsToShow evaluate numToDisplay).events, e ∈ d.allOutputEvents) ∧
    (d.processButtonToggleState = false →
      ∀ e ∈ (d.rebuildEventsToShow evaluate numToDisplay).events, e ∈ d.allInputEvents) := by
  have hframe := Display.rebuildLoop_frame evaluate numToDisplay
    (Display.arrayToUse { d with events := [] }).reverse { d with events := [] }
  have hmem : ∀ e ∈ (d.rebuildEventsToShow evaluate numToDisplay).events,
      e ∈ d.arrayToUse := by
    intro e he
    rcases Display.rebuildLoop_mem evaluate numToDisplay _ _ e he with h | ⟨h, _⟩
    · simp at h
    · simpa [Display.arrayToUse] using h
  refine ⟨hframe.1, hframe.2.1, ?_, ?_⟩
  · intro hb e he
    simpa [Display.arrayToUse, hb] using hmem e he
  · intro hb e he
    simpa [Display.arrayToUse, hb] using hmem e he

/-- C9, at a concrete input: the sample display shows the output list; the one event
displayed under the filter is an element of `allOutputEvents`. -/
theorem rebuildEventsToShow_shows_selected_list_witness :
    sampleNote 80 3 ∈ (sampleDisplay "Message.getNoteNumber() > 64").allOutputEvents :=
  (rebuildEventsToShow_shows_selected_list noteAbove64 5
    (sampleDisplay "Message.getNoteNumber() > 64")).2.2.1 rfl (sampleNote 80 3) (by decide)

end hise

namespace hise

/-- C11: `DebugInformation::toString()` is exactly the concatenation
`"Name: " + n + ", Type: " + t + ", DataType:" + d + ", Value: " + v` of the four row
texts, and `getTextForRow` returns `getTextForName/Type/DataType/Value` for the rows
`Name`, `Type`, `DataType`, `Value` and the empty string for `numRows`. -/
theorem toString_is_concatenation_of_rows (info : DebugInformation) :
    info.toString =
      "Name: " ++ info.getTextForRow .Name ++ ", Type: " ++ info.getTextForRow .Type ++
        ", DataType:" ++ info.getTextForRow .DataType ++ ", Value: " ++
        info.getTextForRow .Value ∧
    info.getTextForRow .Name = info.getTextForName ∧
    info.getTextForRow .Type = info.getTextForType ∧
    info.getTextForRow .DataType = info.getTextForDataType ∧
    info.getTextForRow .Value = info.getTextForValue ∧
    info.getTextForRow .numRows = "" := by
  refine ⟨?_, rfl, rfl, rfl, rfl, rfl⟩
  have h1 : ∀ a : String, "" ++ a = a := fun a => by
    apply String.ext
    simp
  have h2 : ∀ a b : String, a ++ ", " ++ "Type: " ++ b = a ++ ", Type: " ++ b := by
    intro a b
    simp [String.append_assoc]
  have h3 : ∀ a b : String, a ++ ", " ++ "DataType:" ++ b = a ++ ", DataType:" ++ b := by
    intro a b
    simp [String.append_assoc]
  have h4 : ∀ a b : String, a ++ ", " ++ "Value: " ++ b = a ++ ", Value: " ++ b := by
    intro a b
    simp [String.append_assoc]
  simp only [DebugInformation.toString, h1, h2, h3, h4]

end hise

namespace snex

/-- C12: for each debug-object type code `getColourAndLetterForType` sets the letter to
'F' for `LocalFunction` (9000), 'A' for `ApiCall` (9001), 'T' for `Template` (9002), 'C'
for `Constants` (9003) and 'T' for `BasicTypes` (9004), and the colour to dodgerblue,
aqua, yellow with saturation 0.3, blanchedalmond and white, whatever the two output
parameters held on entry and whatever the first branch wrote. -/
theorem getColourAndLetterForType_debug_object_types (Dynamic : Int)
    (getColourForType : Int → Colour) (getTypeChar : Int → Char) (colour : Colour)
    (letter : Char) :
    ApiHelpers.getColourAndLetterForType Dynamic getColourForType getTypeChar 9000 colour letter =
      (.named "dodgerblue", 'F') ∧
    ApiHelpers.getColourAndLetterForType Dynamic getColourForType getTypeChar 9001 colour letter =
      (.named "aqua", 'A') ∧
    ApiHelpers.getColourAndLetterForType Dynamic getColourForType getTypeChar 9002 colour letter =
      (.withSaturation (.named "yellow") "0.3f", 'T') ∧
    ApiHelpers.getColourAndLetterForType Dynamic getColourForType getTypeChar 9003 colour letter =
      (.named "blanchedalmond", 'C') ∧
    ApiHelpers.getColourAndLetterForType Dynamic getColourForType getTypeChar 9004 colour letter =
      (.named "white", 'T') ∧
    ApiHelpers.DebugObjectTypes.LocalFunction.toInt = 9000 ∧
    ApiHelpers.DebugObjectTypes.ApiCall.toInt = 9001 ∧
    ApiHelpers.DebugObjectTypes.Template.toInt = 9002 ∧
    ApiHelpers.DebugObjectTypes.Constants.toInt = 9003 ∧
    ApiHelpers.DebugObjectTypes.BasicTypes.toInt = 9004 := by
  refine ⟨?_, ?_, ?_, ?_, ?_, rfl, rfl, rfl, rfl, rfl⟩ <;>
    simp [ApiHelpers.getColourAndLetterForType, ApiHelpers.DebugObjectTypes.toInt]

/-- C13: when `HISE_INCLUDE_SNEX` is not predefined it resolves to 1 exactly when
neither `__arm__` nor `__arm64__` is defined and `USE_BACKEND` is non-zero, and to 0
otherwise; a predefined value is kept. -/
theorem HISE_INCLUDE_SNEX_resolution (arm arm64 : Bool) (USE_BACKEND v : Int) :
    (HISE_INCLUDE_SNEX none arm arm64 USE_BACKEND = 1 ↔
      (arm = false ∧ arm64 = false ∧ USE_BACKEND ≠ 0)) ∧
    (HISE_INCLUDE_SNEX none arm arm64 USE_BACKEND = 0 ↔
      ¬ (arm = false ∧ arm64 = false ∧ USE_BACKEND ≠ 0)) ∧
    HISE_INCLUDE_SNEX (some v) arm arm64 USE_BACKEND = v := by
  refine ⟨?_, ?_, rfl⟩ <;>
    cases arm <;> cases arm64 <;> by_cases h : USE_BACKEND = 0 <;>
      simp [HISE_INCLUDE_SNEX, h]

/-- C14: when `HISE_INCLUDE_SNEX_X64_CODEGEN` is not predefined it is 0 whenever
`JUCE_ARM` is set and equals `HISE_INCLUDE_SNEX` otherwise; the placeholder struct
`asmjit::x86::Compiler` is declared exactly when the flag is 0. -/
theorem HISE_INCLUDE_SNEX_X64_CODEGEN_resolution (JUCE_ARM includeSnex : Int)
    (predefined : Option Int) :
    HISE_INCLUDE_SNEX_X64_CODEGEN none JUCE_ARM includeSnex =
      (if JUCE_ARM ≠ 0 then 0 else includeSnex) ∧
    (placeholderCompilerDeclared
        (HISE_INCLUDE_SNEX_X64_CODEGEN predefined JUCE_ARM includeSnex) = true ↔
      HISE_INCLUDE_SNEX_X64_CODEGEN predefined JUCE_ARM includeSnex = 0) := by
  constructor
  · by_cases h : JUCE_ARM = 0 <;> simp [HISE_INCLUDE_SNEX_X64_CODEGEN, h]
  · simp [placeholderCompilerDeclared]

end snex

namespace hise

/-- The texts `firstTexts` collects are those of the first `n` elements, in order. -/
theorem firstTexts_eq_map (n : Nat) (l : List JuceVar) :
    firstTexts n l = (l.take n).map getArrayTextForVar := by
  induction n generalizing l with
  | zero => simp [firstTexts]
  | succ n ih =>
    cases l with
    | nil => simp [firstTexts]
    | cons v rest => simp [firstTexts, ih]

/-- C15: for every array value of n elements `getArrayTextForVar` returns "[" followed by
the texts of the first min(n, 4) elements separated by ", " (each rendered by
`getArrayTextForVar` itself) followed by "]" when n <= 4 and by ", (...)]" when n > 4; the
empty array yields "[]", the read at index -1 contributing the empty string; and
`DebugInformation::varArrayToString` returns the same text for the array. -/
theorem getArrayTextForVar_array (elements : List JuceVar) :
    getArrayTextForVar (.array elements) =
      "[" ++ ", ".intercalate ((elements.take (min elements.length 4)).map getArrayTextForVar) ++
        (if elements.length ≤ 4 then "]" else ", (...)]") ∧
    getArrayTextForVar (.array []) = "[]" ∧
    textAtIndex (firstTexts 4 []) (min 4 ((([] : List JuceVar).length : Nat) : Int) - 1) = "" ∧
    DebugInformation.varArrayToString elements = getArrayTextForVar (.array elements) := by
  have happ : ∀ a : String, "" ++ a = a := fun a => by
    apply String.ext
    simp
  have happ2 : ∀ a : String, a ++ "" = a := fun a => by
    apply String.ext
    simp
  refine ⟨?_, by decide, by decide, rfl⟩
  rw [getArrayTextForVar, firstTexts_eq_map]
  match elements with
  | [] => decide
  | [a] =>
    simp [arrayText, arrayTextLoop, textAtIndex, String.intercalate, String.intercalate.go,
      happ, happ2]
  | [a, b] =>
    simp [arrayText, arrayTextLoop, textAtIndex, String.intercalate, String.intercalate.go,
      List.range_succ, happ, happ2, String.append_assoc]
  | [a, b, c] =>
    simp [arrayText, arrayTextLoop, textAtIndex, String.intercalate, String.intercalate.go,
      List.range_succ, happ, happ2, String.append_assoc]
  | [a, b, c, d] =>
    simp [arrayText, arrayTextLoop, textAtIndex, String.intercalate, String.intercalate.go,
      List.range_succ, happ, happ2, String.append_assoc]
  | a :: b :: c :: d :: e :: rest =>
    have hmin : min (4 : Int) ((rest.length : Int) + 1 + 1 + 1 + 1 + 1) = 4 := by omega
    have hne : ¬ ((4 : Int) = (rest.length : Int) + 1 + 1 + 1 + 1 + 1) := by omega
    simp [arrayText, arrayTextLoop, textAtIndex, String.intercalate, String.intercalate.go,
      List.range_succ, happ, happ2, String.append_assoc, hmin, hne]

end hise

namespace hise

end hise

namespace hise

/-- Reading a property after the replacing branch of `setProperty`. -/
theorem getProperty_map_replace (o : DynamicObject) (k k1 : String) (v dflt : Var) :
    getProperty (o.map (fun p => if p.1 == k then (k, v) else p)) k1 dflt =
      if k1 = k ∧ o.any (fun p => p.1 == k) = true then v else getProperty o k1 dflt := by
  induction o with
  | nil => simp [getProperty]
  | cons p o ih =>
    unfold getProperty at ih ⊢
    by_cases hpk : p.1 = k
    · by_cases hk : k1 = k
      · simp [hpk, hk]
      · have hk2 : ¬ k = k1 := fun h => hk h.symm
        simp [hpk, hk, hk2] at ih ⊢
        exact ih
    · by_cases hp1 : p.1 = k1
      · by_cases hk : k1 = k
        · exact absurd (hp1.trans hk) hpk
        · simp [hpk, hp1, hk]
      · have hb : (p.1 == k) = false := by simpa using hpk
        rw [List.any_cons, hb, Bool.false_or]
        simp [hpk, hp1] at ih ⊢
        exact ih

/-- Reading a property after `setProperty`: the value just set for the name set, the
earlier value for every other name. -/
theorem getProperty_setProperty (o : DynamicObject) (k k1 : String) (v dflt : Var) :
    getProperty (setProperty o k v) k1 dflt = if k1 = k then v else getProperty o k1 dflt := by
  unfold setProperty
  by_cases hany : o.any (fun p => p.1 == k) = true
  · rw [if_pos hany, getProperty_map_replace]
    simp [hany]
  · rw [if_neg hany]
    have hnone : List.find? (fun p => p.1 == k) o = none := by
      rw [List.find?_eq_none]
      intro x hx hxk
      exact hany (List.any_eq_true.mpr ⟨x, hx, hxk⟩)
    by_cases hk : k1 = k
    · subst hk
      simp [getProperty, List.find?_append, hnone]
    · have hk2 : ¬ k = k1 := fun h => hk h.symm
      simp [getProperty, List.find?_append, hk, hk2]

/-- After the nine `setProperty` calls for an event, each of the nine properties holds
that event's value, whatever the object held before and whatever default is asked for. -/
theorem getProperty_setMessageProperties (data : DynamicObject) (e : HiseEvent) (dflt : Var) :
    getProperty (setMessageProperties data e) "number" dflt = .int e.noteNumber ∧
    getProperty (setMessageProperties data e) "velocity" dflt = .int e.velocity ∧
    getProperty (setMessageProperties data e) "type" dflt = .int e.type ∧
    getProperty (setMessageProperties data e) "channel" dflt = .int e.channel ∧
    getProperty (setMessageProperties data e) "event_id" dflt = .int e.eventId ∧
    getProperty (setMessageProperties data e) "timestamp" dflt = .int e.timeStamp ∧
    getProperty (setMessageProperties data e) "artificial" dflt = .bool e.artificial ∧
    getProperty (setMessageProperties data e) "ignored" dflt = .bool e.ignored ∧
    getProperty (setMessageProperties data e) "timer" dflt = .bool e.timerEvent := by
  simp [setMessageProperties, getProperty_setProperty]

end hise

namespace hise

/-- One run of the loop body inserts the event exactly when the source's condition
`filterExpression.isEmpty() || engine->evaluate(...)` holds, here given by `passes`, and
leaves the filter expression alone. -/
theorem Display.rebuildStep_events {Eng : Type}
    (evaluate : Eng → DynamicObject → String → Evaluation Eng) (e : HiseEvent)
    (d : Display Eng) (passes : HiseEvent → Bool)
    (hp : ∀ eng data x, (d.filterExpression = "" ∨
      (evaluate eng (setMessageProperties data x) d.filterExpression).value = true) ↔
        passes x = true) :
    (d.rebuildStep evaluate e).events = (if passes e then e :: d.events else d.events) ∧
    (d.rebuildStep evaluate e).filterExpression = d.filterExpression := by
  unfold Display.rebuildStep
  by_cases hf : d.filterExpression = ""
  · have hpe : passes e = true := (hp d.engine d.data e).mp (Or.inl hf)
    simp [hf, hpe]
  · by_cases hv : (evaluate d.engine (setMessageProperties d.data e)
        d.filterExpression).value = true
    · have hpe : passes e = true := (hp d.engine d.data e).mp (Or.inr hv)
      simp [hf, hv, hpe]
    · have hpe : ¬ passes e = true := fun h =>
        ((hp d.engine d.data e).mpr h).elim hf hv
      simp [hf, hv, hpe]

/-- When fewer than `numToDisplay` events are shown so far, the loop prepends the
passing ones among the visited elements, in reverse visiting order, up to the
`numToDisplay`-th. -/
theorem Display.rebuildLoop_last_passing {Eng : Type}
    (evaluate : Eng → DynamicObject → String → Evaluation Eng) (numToDisplay : Int)
    (passes : HiseEvent → Bool) (l : List HiseEvent) (d : Display Eng)
    (hp : ∀ eng data x, (d.filterExpression = "" ∨
      (evaluate eng (setMessageProperties data x) d.filterExpression).value = true) ↔
        passes x = true)
    (hn : (d.events.length : Int) < numToDisplay) :
    (Display.rebuildLoop evaluate numToDisplay l d).events =
      ((l.filter passes).take (numToDisplay.toNat - d.events.length)).reverse ++ d.events := by
  induction l generalizing d with
  | nil => simp [Display.rebuildLoop]
  | cons e rest ih =>
    obtain ⟨hev, hexpr⟩ := Display.rebuildStep_events evaluate e d passes hp
    have hp1 : ∀ eng data x, ((d.rebuildStep evaluate e).filterExpression = "" ∨
        (evaluate eng (setMessageProperties data x)
          (d.rebuildStep evaluate e).filterExpression).value = true) ↔ passes x = true := by
      rw [hexpr]
      exact hp
    simp only [Display.rebuildLoop]
    by_cases hpe : passes e = true
    · have hev1 : (d.rebuildStep evaluate e).events = e :: d.events := by
        rw [hev]
        simp [hpe]
      have hlen : (d.rebuildStep evaluate e).events.length = d.events.length + 1 := by
        rw [hev1]
        simp
      by_cases hstop : ((d.rebuildStep evaluate e).events.length : Int) = numToDisplay
      · rw [if_pos hstop, hev1]
        have hk : numToDisplay.toNat - d.events.length = 1 := by
          rw [hlen] at hstop
          omega
        simp [List.filter_cons, hpe, hk]
      · rw [if_neg hstop]
        have hn1 : ((d.rebuildStep evaluate e).events.length : Int) < numToDisplay := by
          rw [hlen] at hstop ⊢
          omega
        rw [ih _ hp1 hn1, hev1]
        have hk : numToDisplay.toNat - d.events.length =
            (numToDisplay.toNat - (e :: d.events).length) + 1 := by
          rw [hlen] at hn1
          simp only [List.length_cons]
          omega
        rw [hk]
        simp [List.filter_cons, hpe]
    · have hev1 : (d.rebuildStep evaluate e).events = d.events := by
        rw [hev]
        simp [hpe]
      have hstop : ¬ ((d.rebuildStep evaluate e).events.length : Int) = numToDisplay := by
        rw [hev1]
        omega
      rw [if_neg hstop, ih _ hp1 (by rw [hev1]; exact hn), hev1]
      simp [List.filter_cons, hpe]

/-- C17: for every selected event list and every `numToDisplay >= 1`,
`rebuildEventsToShow` leaves in `events` exactly the last min(numToDisplay, m) events of
the list that pass the filter, m being the number of passing events, in the order they
have in the list. The filter is given by `passes`, the outcome of the source's condition
for an event. -/
theorem rebuildEventsToShow_last_passing {Eng : Type}
    (evaluate : Eng → DynamicObject → String → Evaluation Eng) (numToDisplay : Int)
    (passes : HiseEvent → Bool) (d : Display Eng) (hn : 1 ≤ numToDisplay)
    (hp : ∀ eng data x, (d.filterExpression = "" ∨
      (evaluate eng (setMessageProperties data x) d.filterExpression).value = true) ↔
        passes x = true) :
    (d.rebuildEventsToShow evaluate numToDisplay).events =
      (d.arrayToUse.filter passes).drop ((d.arrayToUse.filter passes).length -
        min numToDisplay.toNat (d.arrayToUse.filter passes).length) ∧
    (d.rebuildEventsToShow evaluate numToDisplay).events.length =
      min numToDisplay.toNat (d.arrayToUse.filter passes).length := by
  have hloop := Display.rebuildLoop_last_passing evaluate numToDisplay passes
    (Display.arrayToUse { d with events := [] }).reverse { d with events := [] } hp
    (by simpa using hn)
  have hev : (d.rebuildEventsToShow evaluate numToDisplay).events =
      (d.arrayToUse.filter passes).drop ((d.arrayToUse.filter passes).length -
        min numToDisplay.toNat (d.arrayToUse.filter passes).length) := by
    have h0 : (d.rebuildEventsToShow evaluate numToDisplay).events = _ := hloop
    rw [h0]
    have harr : Display.arrayToUse { d with events := [] } = d.arrayToUse := rfl
    have hsub : (d.arrayToUse.filter passes).length -
        min numToDisplay.toNat (d.arrayToUse.filter passes).length =
        (d.arrayToUse.filter passes).length - numToDisplay.toNat := by omega
    rw [harr, hsub, List.filter_reverse, List.take_reverse]
    simp
  refine ⟨hev, ?_⟩
  rw [hev, List.length_drop]
  omega

/-- C17, at a concrete input: the sample display shows the output list under the filter
`Message.getNoteNumber() > 64` with room for one row: note 80, the last passing event. -/
theorem rebuildEventsToShow_last_passing_witness :
    ((sampleDisplay "Message.getNoteNumber() > 64").rebuildEventsToShow noteAbove64 1).events =
      ((sampleDisplay "Message.getNoteNumber() > 64").arrayToUse.filter
          (fun e => decide (64 < e.noteNumber))).drop
        (((sampleDisplay "Message.getNoteNumber() > 64").arrayToUse.filter
          (fun e => decide (64 < e.noteNumber))).length -
          min (1 : Int).toNat ((sampleDisplay "Message.getNoteNumber() > 64").arrayToUse.filter
            (fun e => decide (64 < e.noteNumber))).length) ∧
    ((sampleDisplay "Message.getNoteNumber() > 64").rebuildEventsToShow noteAbove64
        1).events.length =
      min (1 : Int).toNat ((sampleDisplay "Message.getNoteNumber() > 64").arrayToUse.filter
        (fun e => decide (64 < e.noteNumber))).length :=
  rebuildEventsToShow_last_passing noteAbove64 1 (fun e => decide (64 < e.noteNumber))
    (sampleDisplay "Message.getNoteNumber() > 64") (by decide)
    (fun eng data x => by
      simp [sampleDisplay, noteAbove64, (getProperty_setMessageProperties data x (.int 0)).1])

end hise

namespace hise

/-- The function `rebuildEventsToShow` writes neither `allInputEvents` nor
`allOutputEvents`. -/
theorem Display.rebuildEventsToShow_lists {Eng : Type}
    (evaluate : Eng → DynamicObject → String → Evaluation Eng) (numToDisplay : Int)
    (d : Display Eng) :
    (d.rebuildEventsToShow evaluate numToDisplay).allInputEvents = d.allInputEvents ∧
    (d.rebuildEventsToShow evaluate numToDisplay).allOutputEvents = d.allOutputEvents := by
  have h := Display.rebuildLoop_frame evaluate numToDisplay
    (Display.arrayToUse { d with events := [] }).reverse { d with events := [] }
  exact ⟨h.1, h.2.1⟩

/-- What `timerCallback` leaves in the two lists: the list with the drained events
appended, without its first 1024 elements when that is more than 2048 long. -/
theorem Display.timerCallback_lists {Eng Q : Type} (isEmpty : Q → Bool)
    (drain : Q → List HiseEvent × Q)
    (evaluate : Eng → DynamicObject → String → Evaluation Eng) (numToDisplay : Int)
    (l : EventLogger Q) (d : Display Eng) :
    (d.timerCallback isEmpty drain evaluate numToDisplay (some l)).2.allInputEvents =
      (if (d.allInputEvents ++ (drain l.inputQueue).1).length > 2048 then
        (d.allInputEvents ++ (drain l.inputQueue).1).drop 1024
      else d.allInputEvents ++ (drain l.inputQueue).1) ∧
    (d.timerCallback isEmpty drain evaluate numToDisplay (some l)).2.allOutputEvents =
      (if (d.allOutputEvents ++ (drain l.outputQueue).1).length > 2048 then
        (d.allOutputEvents ++ (drain l.outputQueue).1).drop 1024
      else d.allOutputEvents ++ (drain l.outputQueue).1) := by
  simp only [Display.timerCallback, removeRange, List.take_zero, List.nil_append, Nat.zero_add]
  by_cases hdid : (!isEmpty l.inputQueue || !isEmpty l.outputQueue) = true
  · rw [if_pos hdid]
    rw [(Display.rebuildEventsToShow_lists evaluate numToDisplay _).1,
      (Display.rebuildEventsToShow_lists evaluate numToDisplay _).2]
    constructor <;> split <;> split <;> simp_all
  · rw [if_neg hdid]
    constructor <;> split <;> split <;> simp_all

/-- C19: the event logger display keeps a bounded history: if a list (`allInputEvents`,
`allOutputEvents`) holds at most 2048 events before a `timerCallback` and its queue
delivers at most 1024 events, the list holds at most 2048 events afterwards; a list that
exceeds 2048 events after the delivery loses exactly its 1024 oldest events, the newer
ones keeping their order, and a list that does not is kept whole. A logger's queues are
constructed with capacity 512, and without a logger the callback changes nothing. -/
theorem timerCallback_bounded_history {Eng Q : Type} (isEmpty : Q → Bool)
    (drain : Q → List HiseEvent × Q)
    (evaluate : Eng → DynamicObject → String → Evaluation Eng) (numToDisplay : Int)
    (newQueue : Nat → Q) (l : EventLogger Q) (d : Display Eng) :
    (d.allInputEvents.length ≤ 2048 → (drain l.inputQueue).1.length ≤ 1024 →
      (d.timerCallback isEmpty drain evaluate numToDisplay (some l)).2.allInputEvents.length
        ≤ 2048) ∧
    (d.allOutputEvents.length ≤ 2048 → (drain l.outputQueue).1.length ≤ 1024 →
      (d.timerCallback isEmpty drain evaluate numToDisplay (some l)).2.allOutputEvents.length
        ≤ 2048) ∧
    (d.timerCallback isEmpty drain evaluate numToDisplay (some l)).2.allInputEvents =
      (if (d.allInputEvents ++ (drain l.inputQueue).1).length > 2048 then
        (d.allInputEvents ++ (drain l.inputQueue).1).drop 1024
      else d.allInputEvents ++ (drain l.inputQueue).1) ∧
    (d.timerCallback isEmpty drain evaluate numToDisplay (some l)).2.allOutputEvents =
      (if (d.allOutputEvents ++ (drain l.outputQueue).1).length > 2048 then
        (d.allOutputEvents ++ (drain l.outputQueue).1).drop 1024
      else d.allOutputEvents ++ (drain l.outputQueue).1) ∧
    EventLogger.new newQueue = ⟨newQueue 512, newQueue 512⟩ ∧
    d.timerCallback isEmpty drain evaluate numToDisplay none = (none, d) := by
  obtain ⟨h1, h2⟩ := Display.timerCallback_lists isEmpty drain evaluate numToDisplay l d
  refine ⟨?_, ?_, h1, h2, rfl, rfl⟩
  · intro hin hqin
    rw [h1]
    split
    · simp only [List.length_drop, List.length_append]
      omega
    · rename_i h
      omega
  · intro hout hqout
    rw [h2]
    split
    · simp only [List.length_drop, List.length_append]
      omega
    · rename_i h
      omega

/-- C19, at a concrete input: the sample display, whose input list holds three events,
and a logger whose queues deliver one event each. -/
theorem timerCallback_bounded_history_witness :
    ((sampleDisplay "").timerCallback (fun q => q.isEmpty) (fun q => (q, []))
        noteAbove64 5 (some ⟨[sampleNote 90 4], [sampleNote 90 4]⟩)).2.allInputEvents.length
      ≤ 2048 :=
  (timerCallback_bounded_history (fun q => q.isEmpty) (fun q => (q, [])) noteAbove64 5
    (fun _ => []) ⟨[sampleNote 90 4], [sampleNote 90 4]⟩ (sampleDisplay "")).1
    (by decide) (by decide)

end hise

namespace hise

/-- One round of the loop with a non-empty filter expression: the engine and the object
are those the call leaves behind, and the event is inserted exactly when the call's
value is true. -/
theorem Display.rebuildStep_nonempty {Eng : Type}
    (evaluate : Eng → DynamicObject → String → Evaluation Eng) (e : HiseEvent)
    (d : Display Eng) (hf : d.filterExpression ≠ "") :
    (d.rebuildStep evaluate e).filterExpression = d.filterExpression ∧
    (d.rebuildStep evaluate e).engine =
      (evaluate d.engine (setMessageProperties d.data e) d.filterExpression).engine ∧
    (d.rebuildStep evaluate e).data =
      (evaluate d.engine (setMessageProperties d.data e) d.filterExpression).data ∧
    (d.rebuildStep evaluate e).events =
      (if (evaluate d.engine (setMessageProperties d.data e) d.filterExpression).value = true
        then e :: d.events else d.events) := by
  simp [Display.rebuildStep, hf]

/-- With a non-empty filter expression the loop prepends, in reverse order of the calls,
the events of exactly those calls that returned a true value. -/
theorem Display.rebuildLoop_events_of_calls {Eng : Type}
    (evaluate : Eng → DynamicObject → String → Evaluation Eng) (numToDisplay : Int)
    (l : List HiseEvent) (d : Display Eng) (hf : d.filterExpression ≠ "") :
    (Display.rebuildLoop evaluate numToDisplay l d).events =
      (((Display.rebuildLoopCalls evaluate numToDisplay l d).filter
        (FilterCall.passed evaluate)).map FilterCall.event).reverse ++ d.events := by
  induction l generalizing d with
  | nil => simp [Display.rebuildLoop, Display.rebuildLoopCalls]
  | cons e rest ih =>
    obtain ⟨hexpr, _, _, hev⟩ := Display.rebuildStep_nonempty evaluate e d hf
    have hf1 : (d.rebuildStep evaluate e).filterExpression ≠ "" := by
      rw [hexpr]
      exact hf
    have hpass : FilterCall.passed evaluate
        ⟨e, d.engine, setMessageProperties d.data e, d.filterExpression⟩ =
        (evaluate d.engine (setMessageProperties d.data e) d.filterExpression).value := by
      simp only [FilterCall.passed]
    have hce : (⟨e, d.engine, setMessageProperties d.data e, d.filterExpression⟩ :
        FilterCall Eng).event = e := by
      simp only
    simp only [Display.rebuildLoop, Display.rebuildLoopCalls, if_neg hf]
    generalize (⟨e, d.engine, setMessageProperties d.data e, d.filterExpression⟩ :
      FilterCall Eng) = call at hpass hce ⊢
    generalize (evaluate d.engine (setMessageProperties d.data e)
      d.filterExpression).value = v at hev hpass
    by_cases hstop : ((d.rebuildStep evaluate e).events.length : Int) = numToDisplay
    · rw [if_pos hstop, if_pos hstop, hev]
      cases v <;> simp [hpass, hce]
    · rw [if_neg hstop, if_neg hstop, ih _ hf1, hev]
      cases v <;> simp [hpass, hce]

/-- Every call of the loop is made for a visited element, with the filter expression as
code, on an object on which the nine `setProperty` calls for that element have just run. -/
theorem Display.rebuildLoopCalls_mem {Eng : Type}
    (evaluate : Eng → DynamicObject → String → Evaluation Eng) (numToDisplay : Int)
    (l : List HiseEvent) (d : Display Eng) (c : FilterCall Eng)
    (hc : c ∈ Display.rebuildLoopCalls evaluate numToDisplay l d) :
    c.event ∈ l ∧ c.code = d.filterExpression ∧
      ∃ data0, c.data = setMessageProperties data0 c.event := by
  induction l generalizing d with
  | nil => simp [Display.rebuildLoopCalls] at hc
  | cons e rest ih =>
    have hexpr : (d.rebuildStep evaluate e).filterExpression = d.filterExpression := by
      unfold Display.rebuildStep
      split <;> simp
    have hhere : c ∈ (if d.filterExpression = "" then ([] : List (FilterCall Eng))
        else [⟨e, d.engine, setMessageProperties d.data e, d.filterExpression⟩]) →
        c.event ∈ e :: rest ∧ c.code = d.filterExpression ∧
          ∃ data0, c.data = setMessageProperties data0 c.event := by
      intro h
      by_cases hf : d.filterExpression = ""
      · simp [hf] at h
      · rw [if_neg hf] at h
        have hceq := List.mem_singleton.mp h
        subst hceq
        refine ⟨?_, ?_, d.data, ?_⟩
        · simp only
          exact List.mem_cons_self _ _
        · simp only
        · simp only
    simp only [Display.rebuildLoopCalls] at hc
    split at hc
    · exact hhere hc
    · rcases List.mem_append.mp hc with h | h
      · exact hhere h
      · obtain ⟨h1, h2, h3⟩ := ih _ h
        exact ⟨List.mem_cons_of_mem _ h1, h2.trans hexpr, h3⟩

/-- With a non-empty filter expression the first call of the loop starts from the
display's engine and object, and every later call starts from the engine and the object
the call before it left behind, with the nine properties of its own event set on top. -/
theorem Display.rebuildLoopCalls_chain {Eng : Type}
    (evaluate : Eng → DynamicObject → String → Evaluation Eng) (numToDisplay : Int)
    (l : List HiseEvent) (d : Display Eng) (hf : d.filterExpression ≠ "") :
    (∀ c ∈ (Display.rebuildLoopCalls evaluate numToDisplay l d).head?,
      c.engine = d.engine ∧ c.data = setMessageProperties d.data c.event) ∧
    List.Chain' (fun a b : FilterCall Eng =>
        b.engine = (evaluate a.engine a.data a.code).engine ∧
        b.data = setMessageProperties (evaluate a.engine a.data a.code).data b.event)
      (Display.rebuildLoopCalls evaluate numToDisplay l d) := by
  induction l generalizing d with
  | nil => simp [Display.rebuildLoopCalls]
  | cons e rest ih =>
    obtain ⟨hexpr, heng, hdata, _⟩ := Display.rebuildStep_nonempty evaluate e d hf
    have hf1 : (d.rebuildStep evaluate e).filterExpression ≠ "" := by
      rw [hexpr]
      exact hf
    simp only [Display.rebuildLoopCalls, if_neg hf]
    split
    · simp
    · obtain ⟨hhead, hchain⟩ := ih _ hf1
      refine ⟨by simp, ?_⟩
      rw [List.singleton_append, List.chain'_cons']
      refine ⟨?_, hchain⟩
      intro y hy
      obtain ⟨h1, h2⟩ := hhead y hy
      simp only
      rw [h1, h2, heng, hdata]
      exact ⟨Eq.refl _, Eq.refl _⟩

/-- With an empty filter expression the loop never calls the engine. -/
theorem Display.rebuildLoopCalls_empty_filter {Eng : Type}
    (evaluate : Eng → DynamicObject → String → Evaluation Eng) (numToDisplay : Int)
    (l : List HiseEvent) (d : Display Eng) (hf : d.filterExpression = "") :
    Display.rebuildLoopCalls evaluate numToDisplay l d = [] := by
  induction l generalizing d with
  | nil => simp [Display.rebuildLoopCalls]
  | cons e rest ih =>
    have hf1 : (d.rebuildStep evaluate e).filterExpression = "" := by
      simp [Display.rebuildStep, hf]
    simp only [Display.rebuildLoopCalls, if_pos hf, List.nil_append]
    split
    · rfl
    · exact ih _ hf1

/-- C10: after `rebuildEventsToShow` with a non-empty filter expression the displayed
events are, in list order, exactly the events for which the loop's call to the engine
returned a true value; each call is made for an event of the selected list, with the
filter expression as code, on the `Message` object holding that event's own nine
properties, from the engine state and object the previous call left behind (the
display's own for the first call). With an empty filter expression the engine is never
called and the displayed events are the selected list's last events, all of them unless
the display stopped at `numToDisplay` rows. -/
theorem rebuildEventsToShow_filters_by_expression {Eng : Type}
    (evaluate : Eng → DynamicObject → String → Evaluation Eng) (numToDisplay : Int)
    (d : Display Eng) :
    (d.filterExpression ≠ "" →
      (d.rebuildEventsToShow evaluate numToDisplay).events =
        (((d.rebuildEventsToShowCalls evaluate numToDisplay).filter
          (FilterCall.passed evaluate)).map FilterCall.event).reverse ∧
      (∀ c ∈ d.rebuildEventsToShowCalls evaluate numToDisplay,
        c.event ∈ d.arrayToUse ∧ c.code = d.filterExpression ∧
        GET_PROPERTY c.data "number" = .int c.event.noteNumber ∧
        GET_PROPERTY c.data "velocity" = .int c.event.velocity ∧
        GET_PROPERTY c.data "type" = .int c.event.type ∧
        GET_PROPERTY c.data "channel" = .int c.event.channel ∧
        GET_PROPERTY c.data "event_id" = .int c.event.eventId ∧
        GET_PROPERTY c.data "timestamp" = .int c.event.timeStamp ∧
        GET_PROPERTY c.data "artificial" = .bool c.event.artificial ∧
        GET_PROPERTY c.data "ignored" = .bool c.event.ignored ∧
        GET_PROPERTY c.data "timer" = .bool c.event.timerEvent) ∧
      (∀ c ∈ (d.rebuildEventsToShowCalls evaluate numToDisplay).head?,
        c.engine = d.engine ∧ c.data = setMessageProperties d.data c.event) ∧
      List.Chain' (fun a b : FilterCall Eng =>
          b.engine = (evaluate a.engine a.data a.code).engine ∧
          b.data = setMessageProperties (evaluate a.engine a.data a.code).data b.event)
        (d.rebuildEventsToShowCalls evaluate numToDisplay) ∧
      (∀ e ∈ (d.rebuildEventsToShow evaluate numToDisplay).events,
        e ∈ d.arrayToUse ∧ ∃ c ∈ d.rebuildEventsToShowCalls evaluate numToDisplay,
          c.event = e ∧ (evaluate c.engine c.data d.filterExpression).value = true)) ∧
    (d.filterExpression = "" →
      d.rebuildEventsToShowCalls evaluate numToDisplay = [] ∧
      (d.rebuildEventsToShow evaluate numToDisplay).events <:+ d.arrayToUse ∧
      ((d.rebuildEventsToShow evaluate numToDisplay).events.length = d.arrayToUse.length ∨
        ((d.rebuildEventsToShow evaluate numToDisplay).events.length : Int) = numToDisplay)) := by
  constructor
  · intro hf
    have hev : (d.rebuildEventsToShow evaluate numToDisplay).events =
        (((d.rebuildEventsToShowCalls evaluate numToDisplay).filter
          (FilterCall.passed evaluate)).map FilterCall.event).reverse := by
      have h := Display.rebuildLoop_events_of_calls evaluate numToDisplay
        (Display.arrayToUse { d with events := [] }).reverse { d with events := [] } hf
      rw [List.append_nil] at h
      exact h
    have hcalls : ∀ c ∈ d.rebuildEventsToShowCalls evaluate numToDisplay,
        c.event ∈ d.arrayToUse ∧ c.code = d.filterExpression ∧
          ∃ data0, c.data = setMessageProperties data0 c.event := by
      intro c hc
      obtain ⟨h1, h2, h3⟩ := Display.rebuildLoopCalls_mem evaluate numToDisplay
        (Display.arrayToUse { d with events := [] }).reverse { d with events := [] } c hc
      exact ⟨by simpa [Display.arrayToUse] using h1, h2, h3⟩
    have hchain := Display.rebuildLoopCalls_chain evaluate numToDisplay
      (Display.arrayToUse { d with events := [] }).reverse { d with events := [] } hf
    refine ⟨hev, ?_, hchain.1, hchain.2, ?_⟩
    · intro c hc
      obtain ⟨h1, h2, data0, h3⟩ := hcalls c hc
      have hp := getProperty_setMessageProperties data0 c.event (.int 0)
      rw [← h3] at hp
      exact ⟨h1, h2, hp⟩
    · intro e he
      rw [hev, List.mem_reverse, List.mem_map] at he
      obtain ⟨c, hc, hce⟩ := he
      obtain ⟨hc1, hc2⟩ := List.mem_filter.mp hc
      obtain ⟨h1, h2, _⟩ := hcalls c hc1
      refine ⟨by rw [← hce]; exact h1, c, hc1, hce, ?_⟩
      rw [← h2]
      exact hc2
  · intro hf
    obtain ⟨k, _, hev, hstop⟩ := Display.rebuildLoop_empty_filter evaluate numToDisplay
      (Display.arrayToUse { d with events := [] }).reverse { d with events := [] } hf
    have hev1 : (d.rebuildEventsToShow evaluate numToDisplay).events =
        d.arrayToUse.drop (d.arrayToUse.length - k) := by
      have : (d.rebuildEventsToShow evaluate numToDisplay).events = _ := hev
      rw [this]
      simp [List.take_reverse, Display.arrayToUse]
    refine ⟨Display.rebuildLoopCalls_empty_filter evaluate numToDisplay _ _ hf, ?_, ?_⟩
    · rw [hev1]
      exact List.drop_suffix _ _
    · rcases hstop with h | h
      · left
        rw [hev1]
        have hk : k = d.arrayToUse.length := by simpa [Display.arrayToUse] using h
        simp [hk]
      · exact Or.inr h

/-- C10, at a concrete input: under the filter `Message.getNoteNumber() > 64` the sample
display shows note 80, for which the loop called the engine and got a true value. -/
theorem rebuildEventsToShow_filters_by_expression_witness :
    sampleNote 80 3 ∈ (sampleDisplay "Message.getNoteNumber() > 64").arrayToUse ∧
    ∃ c ∈ (sampleDisplay "Message.getNoteNumber() > 64").rebuildEventsToShowCalls
        noteAbove64 5,
      c.event = sampleNote 80 3 ∧
      (noteAbove64 c.engine c.data
        (sampleDisplay "Message.getNoteNumber() > 64").filterExpression).value = true :=
  ((rebuildEventsToShow_filters_by_expression noteAbove64 5
    (sampleDisplay "Message.getNoteNumber() > 64")).1 (by decide)).2.2.2.2
    (sampleNote 80 3) (by decide)

end hise
